import Mathlib

/-!
Verification of the column-layout, formula-generation, partitioning and
configuration-editing logic of the Punktezettel generator (src/app.py).

The Python program builds, per exam folder ("Mappe"), a spreadsheet whose
columns are computed by a two-phase allocator inside build_mappe_sheet:
phase 1 places, for every task ("Aufgabe"), one task-summary column ("SS")
followed by one subtask-summary column ("S") per subtask ("Teilaufgabe");
phase 2 then places, for every subtask, a run of point columns.  The
definitions below are direct translations of that code; theorems establish
the layout and formula properties stated in the specification.
-/

set_option maxHeartbeats 1000000

/-- A Teilaufgabe, as stored in the session state:
the dict `{"punkte": int, "descriptions": list[str]}` of app.py. -/
structure Teilaufgabe where
  punkte : Nat
  descriptions : List String
deriving Repr, DecidableEq

/-- An Aufgabe: the dict `{"teilaufgaben": [...]}` of app.py. -/
structure Aufgabe where
  teilaufgaben : List Teilaufgabe
deriving Repr, DecidableEq

/-- The per-Aufgabe layout dict built in build_mappe_sheet (lines 192-200):
keys teil_punkte, teil_descriptions, n_teil, ss_col, s_cols, sum_block_end,
teil_point_starts. -/
structure AufgabeLayout where
  teil_punkte : List Nat
  teil_descriptions : List (List String)
  n_teil : Nat
  ss_col : Nat
  s_cols : List Nat
  sum_block_end : Nat
  teil_point_starts : List Nat
deriving Repr, DecidableEq

/-- The list `[ta["punkte"] for ta in aufgabe["teilaufgaben"]]` (app.py line 187). -/
def teilPunkte (a : Aufgabe) : List Nat :=
  a.teilaufgaben.map (fun ta => ta.punkte)

/-- Phase 1 of the allocator (app.py lines 183-201): starting at cursor
`col`, each Aufgabe gets ss_col = col, s_cols = [col + 1 + t for t in
range(n_teil)], sum_block_end = col + n_teil, and the cursor advances to
sum_block_end + 1.  teil_point_starts is left empty ("filled in phase 2").
Returns the layout list together with the final cursor. -/
def phase1 : List Aufgabe → Nat → List AufgabeLayout × Nat
  | [], col => ([], col)
  | a :: rest, col =>
    let n := a.teilaufgaben.length
    let res := phase1 rest (col + n + 1)
    ({ teil_punkte := teilPunkte a
       teil_descriptions := a.teilaufgaben.map (fun ta => ta.descriptions)
       n_teil := n
       ss_col := col
       s_cols := (List.range n).map (fun t => col + 1 + t)
       sum_block_end := col + n
       teil_point_starts := [] } :: res.1, res.2)

/-- The inner loop of phase 2 (app.py lines 205-207): for each point count,
record the cursor as the run's start and advance the cursor by the count. -/
def pointStartsAux : List Nat → Nat → List Nat × Nat
  | [], col => ([], col)
  | p :: ps, col =>
    let res := pointStartsAux ps (col + p)
    (col :: res.1, res.2)

/-- Phase 2 of the allocator (app.py lines 203-207): walk the layouts in
order, filling teil_point_starts from the continuing cursor. -/
def phase2 : List AufgabeLayout → Nat → List AufgabeLayout × Nat
  | [], col => ([], col)
  | l :: ls, col =>
    let r1 := pointStartsAux l.teil_punkte col
    let r2 := phase2 ls r1.2
    ({ l with teil_point_starts := r1.1 } :: r2.1, r2.2)

/-- The complete column allocation of build_mappe_sheet (app.py lines
181-207): the cursor starts at column 6 (`col = 6`), phase 1 runs over all
Aufgaben, then phase 2 continues from the cursor phase 1 left. -/
def allocateLayouts (aufgaben : List Aufgabe) : List AufgabeLayout :=
  let p1 := phase1 aufgaben 6
  (phase2 p1.1 p1.2).1

/-- Width of one summary block: 1 (the SS column) + one S column per subtask. -/
def blockWidth (a : Aufgabe) : Nat := 1 + a.teilaufgaben.length

/-- Total number of point columns of one Aufgabe. -/
def taskPoints (a : Aufgabe) : Nat := (teilPunkte a).sum

/-- Start column of the summary block of task `i` (closed form). -/
def summaryStart (aufgaben : List Aufgabe) (i : Nat) : Nat :=
  6 + ((aufgaben.take i).map blockWidth).sum

/-- First column of the point-column phase (closed form): the column right
after the last summary block. -/
def pointPhaseStart (aufgaben : List Aufgabe) : Nat :=
  6 + (aufgaben.map blockWidth).sum

/-- Closed form of the point-run start columns generated by the phase 2
inner loop: the t-th run starts at `base` plus the points of the earlier
subtasks of the same task. -/
def taskStarts (tp : List Nat) (base : Nat) : List Nat :=
  (List.range tp.length).map (fun t => base + (tp.take t).sum)

/-- Start column of the point run of subtask `t` of task `i` (closed form). -/
def runStart (aufgaben : List Aufgabe) (i t : Nat) : Nat :=
  pointPhaseStart aufgaben + ((aufgaben.take i).map taskPoints).sum
    + ((teilPunkte (aufgaben.getD i ⟨[]⟩)).take t).sum

/-- All summary columns of a layout list, in placement order: for each
Aufgabe its SS column followed by its S columns. -/
def summaryCols (lays : List AufgabeLayout) : List Nat :=
  lays.flatMap (fun l => l.ss_col :: l.s_cols)

/-- All point columns of a layout list, in placement order: for each
subtask the run of `punkte` consecutive columns from its recorded start. -/
def pointCols (lays : List AufgabeLayout) : List Nat :=
  lays.flatMap (fun l =>
    (l.teil_point_starts.zip l.teil_punkte).flatMap
      (fun sp => List.range' sp.1 sp.2))

/-- A cell value of interest on a Mappe sheet: a numeric literal, or a SUM
formula over a single-row column range (the shape of every SS and S formula
written by build_mappe_sheet). -/
inductive CellValue where
  | lit (n : Nat)
  | sumRow (colFirst colLast row : Nat)
deriving Repr, DecidableEq

/-- The SS-cell formula of one Aufgabe at row `r`, from the f-string
`=SUM({s_cols[0]}{r}:{s_cols[-1]}{r})` that build_mappe_sheet writes at
rows 5, 6 and every student row (app.py lines 316-317, 345-346, 383-384).
Python indexing `[0]` / `[-1]` fails on an empty list, hence the Option. -/
def ssFormula (l : AufgabeLayout) (r : Nat) : Option CellValue :=
  match l.s_cols.head?, l.s_cols.getLast? with
  | some c1, some c2 => some (CellValue.sumRow c1 c2 r)
  | _, _ => none

/-- The S-cell formula of subtask `t` of one Aufgabe at row `r`, from the
f-string `=SUM({fp}{r}:{lp}{r})` with fp = teil_point_starts[t] and
lp = fp + teil_punkte[t] - 1 (app.py lines 322-324, 352-354, 389-391). -/
def sFormula (l : AufgabeLayout) (t r : Nat) : Option CellValue :=
  match l.teil_point_starts[t]?, l.teil_punkte[t]? with
  | some fp, some pts => some (CellValue.sumRow fp (fp + pts - 1) r)
  | _, _ => none

/-- The literal written into every point column of the max-points row
(app.py line 330: `ws.cell(row=5, column=pc, value=1)`). -/
def maxPointsPointCells (l : AufgabeLayout) : List (Nat × CellValue) :=
  (l.teil_point_starts.zip l.teil_punkte).flatMap
    (fun sp => (List.range sp.2).map (fun p => (sp.1 + p, CellValue.lit 1)))

/-- The single-column cell range of the per-column average formula: the
code writes `=IFERROR(AVERAGE({pc}{first_data_row}:{pc}{last_data_row}),"")`
with first_data_row = 7 and last_data_row = 7 + n_students - 1
(app.py lines 341-342, 362-364). -/
structure AvgCell where
  col : Nat
  firstRow : Nat
  lastRow : Nat
deriving Repr, DecidableEq

/-- The average cell written at row 6 of point column `pc` for a Mappe of
`nStudents` students (app.py lines 341-342 and 362-364). -/
def avgFormula (pc nStudents : Nat) : AvgCell :=
  { col := pc, firstRow := 7, lastRow := 7 + nStudents - 1 }

/-- Modelled from the spec: spreadsheet AVERAGE over the rows of a single
column.  `cells r` is the numeric content of row `r` of that column (none =
blank).  AVERAGE of a range containing no numeric cell is an error value;
otherwise it is the arithmetic mean of the numeric cells. -/
def evalAverage (cells : Nat → Option ℚ) (c : AvgCell) : Except Unit ℚ :=
  let vals := (List.range' c.firstRow (c.lastRow + 1 - c.firstRow)).filterMap cells
  if vals.length = 0 then Except.error () else Except.ok (vals.sum / vals.length)

/-- Modelled from the spec: IFERROR(x, "") — the wrapper the code puts
around every AVERAGE — turns an error into a blank cell (none). -/
def ifErrorBlank (e : Except Unit ℚ) : Option ℚ :=
  match e with
  | Except.error _ => none
  | Except.ok q => some q

/-- Number of Mappen: `math.ceil(n_students / studis_pro_mappe)` of
generate_excel (app.py line 438), for a positive capacity. -/
def nMappen (nStudents cap : Nat) : Nat := (nStudents + cap - 1) / cap

/-- The per-Mappe student slices of generate_excel (app.py lines 442-446):
Mappe m (0-based) receives students[m*cap : min(m*cap + cap, n)]. -/
def mappenSlices (students : List α) (cap : Nat) : List (List α) :=
  (List.range (nMappen students.length cap)).map
    (fun m => (students.drop (m * cap)).take cap)

/-- Folder number of the student at 0-based roster index `idx`:
`idx // studis_pro_mappe + 1` (build_studenten_sheet, app.py line 151). -/
def mappeNr (idx cap : Nat) : Nat := idx / cap + 1

/-- Slot of the student at 0-based roster index `idx` inside its folder:
`idx % studis_pro_mappe` (build_studenten_sheet, app.py line 152). -/
def stelle (idx cap : Nat) : Nat := idx % cap

/-- The identity columns of the Studenten overview sheet (app.py line 136):
Mappe, Stelle in Mappe, KlausurCode, Matrikelnummer, Nachname, Vorname. -/
def studentenHeaders : List String :=
  ["Mappe", "Stelle in Mappe", "KlausurCode", "Matrikelnummer", "Nachname", "Vorname"]

/-- The leading columns of a Mappe sheet that hold per-student info: the
row-4 headers Nr, Matr-Nr, Nachname, Vorname at columns 1-4 plus the
"Richtige Klausur?" check column 5 (app.py lines 245, 280-286, 371-379). -/
def mappeInfoCols : List Nat := [1, 2, 3, 4, 5]

/-- _sync_descriptions of app.py (lines 81-89): pad the descriptions list
with empty strings when the new point count exceeds its length, truncate it
when the new count is smaller, and store the new count. -/
def syncDescriptions (ta : Teilaufgabe) (newPunkte : Nat) : Teilaufgabe :=
  let old := ta.descriptions
  if newPunkte > old.length then
    { punkte := newPunkte, descriptions := old ++ List.replicate (newPunkte - old.length) "" }
  else if newPunkte < old.length then
    { punkte := newPunkte, descriptions := old.take newPunkte }
  else
    { punkte := newPunkte, descriptions := old }

/-- The Teilaufgabe the editor creates: `{"punkte": 4, "descriptions": [""] * 4}`. -/
def defaultTeilaufgabe : Teilaufgabe :=
  { punkte := 4, descriptions := List.replicate 4 "" }

/-- The Aufgabe the editor creates (two default Teilaufgaben), used both by
_init_state and _add_aufgabe (app.py lines 40-61). -/
def defaultAufgabe : Aufgabe :=
  { teilaufgaben := [defaultTeilaufgabe, defaultTeilaufgabe] }

/-- _add_aufgabe (app.py lines 53-61): append a default Aufgabe. -/
def addAufgabe (aufgaben : List Aufgabe) : List Aufgabe :=
  aufgaben ++ [defaultAufgabe]

/-- _remove_aufgabe (app.py lines 64-66): remove the Aufgabe at `idx` only
when more than one Aufgabe remains. -/
def removeAufgabe (aufgaben : List Aufgabe) (idx : Nat) : List Aufgabe :=
  if 1 < aufgaben.length then aufgaben.eraseIdx idx else aufgaben

/-- _add_teilaufgabe (app.py lines 69-72): append a default Teilaufgabe to
the Aufgabe at `aIdx`. -/
def addTeilaufgabe : List Aufgabe → Nat → List Aufgabe
  | [], _ => []
  | a :: rest, 0 => { teilaufgaben := a.teilaufgaben ++ [defaultTeilaufgabe] } :: rest
  | a :: rest, i + 1 => a :: addTeilaufgabe rest i

/-- _remove_teilaufgabe (app.py lines 75-78): remove the Teilaufgabe at
`tIdx` of the Aufgabe at `aIdx` only when that Aufgabe keeps at least one. -/
def removeTeilaufgabe : List Aufgabe → Nat → Nat → List Aufgabe
  | [], _, _ => []
  | a :: rest, 0, tIdx =>
    (if 1 < a.teilaufgaben.length then
      { teilaufgaben := a.teilaufgaben.eraseIdx tIdx } else a) :: rest
  | a :: rest, i + 1, tIdx => a :: removeTeilaufgabe rest i tIdx

/-- _sync_descriptions applied at position (aIdx, tIdx) of the session
state, as the UI invokes it (app.py line 526). -/
def modifyTeil : List Teilaufgabe → Nat → Nat → List Teilaufgabe
  | [], _, _ => []
  | ta :: rest, 0, n => syncDescriptions ta n :: rest
  | ta :: rest, i + 1, n => ta :: modifyTeil rest i n

/-- Point-count update of one Teilaufgabe inside the Aufgaben list. -/
def syncAt : List Aufgabe → Nat → Nat → Nat → List Aufgabe
  | [], _, _, _ => []
  | a :: rest, 0, tIdx, n => { teilaufgaben := modifyTeil a.teilaufgaben tIdx n } :: rest
  | a :: rest, i + 1, tIdx, n => a :: syncAt rest i tIdx n

/-- The configuration invariant: at least one Aufgabe, each with at least
one Teilaufgabe. -/
def ValidConfig (aufgaben : List Aufgabe) : Prop :=
  aufgaben ≠ [] ∧ ∀ a ∈ aufgaben, a.teilaufgaben ≠ []

/-- The session states reachable through the editor operations of app.py,
starting from the _init_state default. -/
inductive Reachable : List Aufgabe → Prop
  | start : Reachable [defaultAufgabe]
  | addA {s} : Reachable s → Reachable (addAufgabe s)
  | removeA {s} (idx : Nat) : Reachable s → Reachable (removeAufgabe s idx)
  | addT {s} (aIdx : Nat) : Reachable s → Reachable (addTeilaufgabe s aIdx)
  | removeT {s} (aIdx tIdx : Nat) : Reachable s → Reachable (removeTeilaufgabe s aIdx tIdx)
  | syncT {s} (aIdx tIdx n : Nat) : Reachable s → Reachable (syncAt s aIdx tIdx n)

/-! ### Structural lemmas about the allocator -/

theorem phase1_snd (as : List Aufgabe) (col : Nat) :
    (phase1 as col).2 = col + (as.map blockWidth).sum := by
  induction as generalizing col with
  | nil => simp [phase1]
  | cons a rest ih =>
    simp only [phase1, List.map_cons, List.sum_cons, ih, blockWidth]
    omega

theorem phase1_length (as : List Aufgabe) (col : Nat) :
    (phase1 as col).1.length = as.length := by
  induction as generalizing col with
  | nil => simp [phase1]
  | cons a rest ih => simp [phase1, ih]

theorem phase1_getElem? (as : List Aufgabe) (col i : Nat) :
    ((phase1 as col).1)[i]? = (as[i]?).map (fun a =>
      { teil_punkte := teilPunkte a
        teil_descriptions := a.teilaufgaben.map (fun ta => ta.descriptions)
        n_teil := a.teilaufgaben.length
        ss_col := col + ((as.take i).map blockWidth).sum
        s_cols := (List.range a.teilaufgaben.length).map
          (fun t => col + ((as.take i).map blockWidth).sum + 1 + t)
        sum_block_end := col + ((as.take i).map blockWidth).sum + a.teilaufgaben.length
        teil_point_starts := [] }) := by
  induction as generalizing col i with
  | nil => simp [phase1]
  | cons a rest ih =>
    cases i with
    | zero => simp [phase1]
    | succ j =>
      simp only [phase1, List.getElem?_cons_succ, ih (col + a.teilaufgaben.length + 1) j,
        List.take_succ_cons, List.map_cons, List.sum_cons, blockWidth]
      have harith : ∀ m : Nat,
          col + a.teilaufgaben.length + 1 + m = col + (1 + a.teilaufgaben.length + m) := by
        omega
      rw [harith]

theorem pointStartsAux_snd (ps : List Nat) (col : Nat) :
    (pointStartsAux ps col).2 = col + ps.sum := by
  induction ps generalizing col with
  | nil => simp [pointStartsAux]
  | cons p rest ih =>
    simp only [pointStartsAux, List.sum_cons, ih]
    omega

theorem pointStartsAux_fst (ps : List Nat) (col : Nat) :
    (pointStartsAux ps col).1 = taskStarts ps col := by
  induction ps generalizing col with
  | nil => simp [pointStartsAux, taskStarts]
  | cons p rest ih =>
    simp only [pointStartsAux, taskStarts, List.length_cons, List.range_succ_eq_map,
      List.map_cons, List.map_map, List.take_zero, List.sum_nil, Nat.add_zero,
      List.cons.injEq, true_and, ih]
    apply List.map_congr_left
    intro t _
    simp only [Function.comp_apply, List.take_succ_cons, List.sum_cons, Nat.succ_eq_add_one]
    omega

theorem phase2_length (ls : List AufgabeLayout) (col : Nat) :
    (phase2 ls col).1.length = ls.length := by
  induction ls generalizing col with
  | nil => simp [phase2]
  | cons l rest ih => simp [phase2, ih]

theorem phase2_getElem? (ls : List AufgabeLayout) (col i : Nat) :
    ((phase2 ls col).1)[i]? = (ls[i]?).map (fun l =>
      { l with teil_point_starts := taskStarts l.teil_punkte (col + ((ls.take i).map (fun l2 => l2.teil_punkte.sum)).sum) }) := by
  induction ls generalizing col i with
  | nil => simp [phase2]
  | cons l rest ih =>
    cases i with
    | zero => simp [phase2, pointStartsAux_fst]
    | succ j =>
      simp only [phase2, List.getElem?_cons_succ, pointStartsAux_snd,
        ih (col + l.teil_punkte.sum) j, List.take_succ_cons, List.map_cons, List.sum_cons]
      have harith : ∀ m : Nat,
          col + l.teil_punkte.sum + m = col + (l.teil_punkte.sum + m) := by
        omega
      rw [harith]

theorem phase1_take_map_sum (as : List Aufgabe) (col i : Nat) :
    (((phase1 as col).1.take i).map (fun l => l.teil_punkte.sum)).sum
      = ((as.take i).map taskPoints).sum := by
  induction as generalizing col i with
  | nil => simp [phase1]
  | cons a rest ih =>
    cases i with
    | zero => simp
    | succ j =>
      simp only [phase1, List.take_succ_cons, List.map_cons, List.sum_cons]
      rw [ih (col + a.teilaufgaben.length + 1) j]
      simp [taskPoints]

/-- Full characterization of the allocator: task `i` receives its SS column
at `summaryStart`, its S columns immediately after, a summary block of
width 1 + subtask count, and point runs starting at the prefix sums of the
point counts from `pointPhaseStart` onwards. -/
theorem allocateLayouts_getElem? (aufgaben : List Aufgabe) (i : Nat) :
    (allocateLayouts aufgaben)[i]? = (aufgaben[i]?).map (fun a =>
      { teil_punkte := teilPunkte a
        teil_descriptions := a.teilaufgaben.map (fun ta => ta.descriptions)
        n_teil := a.teilaufgaben.length
        ss_col := summaryStart aufgaben i
        s_cols := (List.range a.teilaufgaben.length).map
          (fun t => summaryStart aufgaben i + 1 + t)
        sum_block_end := summaryStart aufgaben i + a.teilaufgaben.length
        teil_point_starts := taskStarts (teilPunkte a)
          (pointPhaseStart aufgaben + ((aufgaben.take i).map taskPoints).sum) }) := by
  simp only [allocateLayouts]
  rw [phase2_getElem?, phase1_getElem?, phase1_snd, phase1_take_map_sum]
  cases h : aufgaben[i]? with
  | none => simp
  | some a => simp [summaryStart, pointPhaseStart, teilPunkte]

theorem allocateLayouts_length (aufgaben : List Aufgabe) :
    (allocateLayouts aufgaben).length = aufgaben.length := by
  simp only [allocateLayouts]
  rw [phase2_length, phase1_length]

theorem summaryCols_cons (l : AufgabeLayout) (ls : List AufgabeLayout) :
    summaryCols (l :: ls) = (l.ss_col :: l.s_cols) ++ summaryCols ls := by
  simp [summaryCols]

theorem pointCols_cons (l : AufgabeLayout) (ls : List AufgabeLayout) :
    pointCols (l :: ls)
      = ((l.teil_point_starts.zip l.teil_punkte).flatMap (fun sp => List.range' sp.1 sp.2))
        ++ pointCols ls := by
  simp [pointCols]

theorem summaryCols_phase1 (as : List Aufgabe) (col : Nat) :
    summaryCols ((phase1 as col).1) = List.range' col ((as.map blockWidth).sum) := by
  induction as generalizing col with
  | nil => simp [phase1, summaryCols]
  | cons a rest ih =>
    have h1 : (col :: (List.range a.teilaufgaben.length).map (fun t => col + 1 + t))
        = List.range' col (a.teilaufgaben.length + 1) := by
      rw [List.range'_succ, List.range'_eq_map_range]
    simp only [phase1]
    rw [summaryCols_cons]
    simp only [ih (col + a.teilaufgaben.length + 1), List.map_cons, List.sum_cons, blockWidth]
    rw [h1]
    have h2 : col + a.teilaufgaben.length + 1 = col + (a.teilaufgaben.length + 1) := by omega
    rw [h2, List.range'_append_1]
    congr 1
    omega

theorem summaryCols_phase2 (ls : List AufgabeLayout) (col : Nat) :
    summaryCols ((phase2 ls col).1) = summaryCols ls := by
  induction ls generalizing col with
  | nil => simp [phase2]
  | cons l rest ih =>
    simp only [phase2]
    rw [summaryCols_cons, summaryCols_cons, ih]

theorem zip_pointStartsAux_flat (ps : List Nat) (col : Nat) :
    (((pointStartsAux ps col).1.zip ps).flatMap (fun sp => List.range' sp.1 sp.2))
      = List.range' col ps.sum := by
  induction ps generalizing col with
  | nil => simp [pointStartsAux]
  | cons p rest ih =>
    simp only [pointStartsAux, List.zip_cons_cons, List.flatMap_cons, ih (col + p),
      List.sum_cons]
    rw [List.range'_append_1]
    congr 1
    omega

theorem pointCols_phase2 (ls : List AufgabeLayout) (col : Nat) :
    pointCols ((phase2 ls col).1)
      = List.range' col ((ls.map (fun l => l.teil_punkte.sum)).sum) := by
  induction ls generalizing col with
  | nil => simp [phase2, pointCols]
  | cons l rest ih =>
    simp only [phase2]
    rw [pointCols_cons]
    simp only [List.map_cons, List.sum_cons]
    have h2 := ih (pointStartsAux l.teil_punkte col).2
    rw [pointStartsAux_snd] at h2
    rw [pointStartsAux_snd l.teil_punkte col, h2, zip_pointStartsAux_flat,
      List.range'_append_1]
    congr 1
    omega

theorem phase1_map_punkte_sum (as : List Aufgabe) (col : Nat) :
    ((phase1 as col).1.map (fun l => l.teil_punkte.sum)).sum
      = (as.map taskPoints).sum := by
  have h := phase1_take_map_sum as col as.length
  rwa [List.take_of_length_le (by rw [phase1_length]),
    List.take_of_length_le (Nat.le_refl _)] at h

theorem summaryCols_allocate (aufgaben : List Aufgabe) :
    summaryCols (allocateLayouts aufgaben)
      = List.range' 6 ((aufgaben.map blockWidth).sum) := by
  simp only [allocateLayouts]
  rw [summaryCols_phase2, summaryCols_phase1]

theorem pointCols_allocate (aufgaben : List Aufgabe) :
    pointCols (allocateLayouts aufgaben)
      = List.range' (pointPhaseStart aufgaben) ((aufgaben.map taskPoints).sum) := by
  simp only [allocateLayouts]
  rw [pointCols_phase2, phase1_map_punkte_sum, phase1_snd, pointPhaseStart]

/-! ### Claims C1 and C2 -/

/-- C1: for every configuration, the grid allocator lays out columns in two
phases with a single left-to-right cursor.  Task `i` gets its task-summary
(SS) column at `summaryStart aufgaben i` (6 plus the widths 1 + subtask
count of all earlier summary blocks — so phase 1 walks the tasks in order
and each block is one SS column immediately followed by one S column per
subtask); all summary blocks lie before `pointPhaseStart` (phase 1
completes before phase 2); and the point runs start at the prefix sums of
the point counts (`runStart`), i.e. phase 2 walks tasks and subtasks in
order and allocates point_count consecutive columns per subtask, recording
each run's start column. -/
theorem c1_grid_allocator_two_phase (aufgaben : List Aufgabe) (i : Nat) (a : Aufgabe)
    (ha : aufgaben[i]? = some a) :
    (allocateLayouts aufgaben)[i]? = some
      { teil_punkte := teilPunkte a
        teil_descriptions := a.teilaufgaben.map (fun ta => ta.descriptions)
        n_teil := a.teilaufgaben.length
        ss_col := summaryStart aufgaben i
        s_cols := List.range' (summaryStart aufgaben i + 1) a.teilaufgaben.length
        sum_block_end := summaryStart aufgaben i + a.teilaufgaben.length
        teil_point_starts := (List.range a.teilaufgaben.length).map (runStart aufgaben i) } := by
  rw [allocateLayouts_getElem?, ha]
  simp only [Option.map_some', Option.some.injEq, AufgabeLayout.mk.injEq, true_and]
  constructor
  · rw [List.range'_eq_map_range]
  · have hget : aufgaben.getD i ⟨[]⟩ = a := by
      rw [List.getD_eq_getElem?_getD, ha]
      rfl
    unfold taskStarts runStart
    rw [hget]
    have hlen : (teilPunkte a).length = a.teilaufgaben.length := by
      simp [teilPunkte]
    rw [hlen]

/-- Witness for C1 at the default configuration (one task, two subtasks of
four points each): SS at column 6, S columns 7-8, point runs at 9 and 13. -/
theorem c1_grid_allocator_two_phase_witness :
    (allocateLayouts [defaultAufgabe])[0]? = some
      { teil_punkte := [4, 4]
        teil_descriptions := [["", "", "", ""], ["", "", "", ""]]
        n_teil := 2
        ss_col := 6
        s_cols := [7, 8]
        sum_block_end := 8
        teil_point_starts := [9, 13] } := by
  have h := c1_grid_allocator_two_phase [defaultAufgabe] 0 defaultAufgabe rfl
  rw [h]
  decide

/-- C2: for every configuration the assigned columns are pairwise distinct,
contiguous within each allocation phase (the summary columns are exactly
the integer interval starting at 6 of width the total summary-block width,
the point columns exactly the interval starting right after), and every
summary-block column is strictly below every point column. -/
theorem c2_columns_disjoint_contiguous_ordered (aufgaben : List Aufgabe) :
    summaryCols (allocateLayouts aufgaben) = List.range' 6 ((aufgaben.map blockWidth).sum) ∧
    pointCols (allocateLayouts aufgaben)
      = List.range' (pointPhaseStart aufgaben) ((aufgaben.map taskPoints).sum) ∧
    (summaryCols (allocateLayouts aufgaben) ++ pointCols (allocateLayouts aufgaben)).Nodup ∧
    ∀ c ∈ summaryCols (allocateLayouts aufgaben),
      ∀ c2 ∈ pointCols (allocateLayouts aufgaben), c < c2 := by
  refine ⟨summaryCols_allocate _, pointCols_allocate _, ?_, ?_⟩
  · rw [summaryCols_allocate, pointCols_allocate, pointPhaseStart, List.range'_append_1]
    exact List.nodup_range' _ _
  · intro c hc c2 hc2
    rw [summaryCols_allocate, List.mem_range'_1] at hc
    rw [pointCols_allocate, List.mem_range'_1] at hc2
    simp only [pointPhaseStart] at hc2
    omega

/-- Witness for C2 at the default configuration: column 6 (a summary
column) is strictly below column 9 (a point column). -/
theorem c2_columns_disjoint_contiguous_ordered_witness : (6 : Nat) < 9 := by
  have h := c2_columns_disjoint_contiguous_ordered [defaultAufgabe]
  exact h.2.2.2 6 (by rw [h.1]; decide) 9 (by rw [h.2.1]; decide)

theorem summaryBlock_le_pointPhaseStart (aufgaben : List Aufgabe) (i : Nat) (a : Aufgabe)
    (ha : aufgaben[i]? = some a) :
    summaryStart aufgaben i + 1 + a.teilaufgaben.length ≤ pointPhaseStart aufgaben := by
  simp only [summaryStart, pointPhaseStart]
  have h1 : aufgaben.take (i + 1) = aufgaben.take i ++ [a] := by
    rw [List.take_succ, ha]
    rfl
  have h2 : ((aufgaben.take (i + 1)).map blockWidth).sum ≤ (aufgaben.map blockWidth).sum := by
    conv_rhs => rw [← List.take_append_drop (i + 1) aufgaben]
    rw [List.map_append, List.sum_append]
    exact Nat.le_add_right _ _
  rw [h1, List.map_append, List.sum_append] at h2
  simp only [List.map_cons, List.map_nil, List.sum_cons, List.sum_nil, blockWidth] at h2
  omega

/-! ### Claim C3 (corrected) -/

/-- C3 counterexample: at the editor's default configuration (one task with
two four-point subtasks) the first task-summary column is column 6, not
column 7 as the claim states. -/
theorem c3_reserved_columns_counterexample :
    ((allocateLayouts [defaultAufgabe])[0]?).map (fun l => l.ss_col) ≠ some 7 := by
  decide

/-- C3 (amended): the Mappe sheets reserve exactly 5 leading columns
(Nr, Matr-Nr, Nachname, Vorname and the check column, positions 1-5); the
allocator's numbering starts at the first free column after them, so the
first task-summary column of the first task is placed at column 6, and
every allocated column lies strictly beyond every reserved column. -/
theorem c3_reserved_columns_amended (aufgaben : List Aufgabe) (l0 : AufgabeLayout)
    (h : (allocateLayouts aufgaben)[0]? = some l0) :
    l0.ss_col = 6 ∧ mappeInfoCols.length = 5 ∧
    ∀ c ∈ mappeInfoCols,
      ∀ c2 ∈ summaryCols (allocateLayouts aufgaben) ++ pointCols (allocateLayouts aufgaben),
        c < c2 := by
  refine ⟨?_, rfl, ?_⟩
  · rw [allocateLayouts_getElem?] at h
    cases ha : aufgaben[0]? with
    | none => rw [ha] at h; simp at h
    | some a =>
      rw [ha] at h
      simp only [Option.map_some', Option.some.injEq] at h
      rw [← h]
      simp [summaryStart]
  · intro c hc c2 hc2
    have hc5 : c ≤ 5 := by
      simp only [mappeInfoCols, List.mem_cons, List.not_mem_nil, or_false] at hc
      omega
    rcases List.mem_append.mp hc2 with h2 | h2
    · rw [summaryCols_allocate, List.mem_range'_1] at h2
      omega
    · rw [pointCols_allocate, List.mem_range'_1] at h2
      simp only [pointPhaseStart] at h2
      omega

/-- Witness for the amended C3 at the default configuration. -/
theorem c3_reserved_columns_amended_witness :
    (6 : Nat) = 6 ∧ mappeInfoCols.length = 5 := by
  have h := c3_reserved_columns_amended [defaultAufgabe]
    { teil_punkte := [4, 4]
      teil_descriptions := [["", "", "", ""], ["", "", "", ""]]
      n_teil := 2
      ss_col := 6
      s_cols := [7, 8]
      sum_block_end := 8
      teil_point_starts := [9, 13] } (by decide)
  exact ⟨h.1, h.2.1⟩

/-! ### Claim C7 (corrected) -/

/-- C7 counterexample: on a configuration containing a task with zero
subtasks the grid allocation does not fail at all — it completes and
produces a width-1 summary block (ss_col = sum_block_end = 6) with no
subtask-summary columns and no point runs.  No ConfigurationError (or any
validation) exists in the code. -/
theorem c7_no_validation_counterexample :
    allocateLayouts [{ teilaufgaben := [] }] =
      [{ teil_punkte := [], teil_descriptions := [], n_teil := 0, ss_col := 6,
         s_cols := [], sum_block_end := 6, teil_point_starts := [] }] := by
  decide

/-- C7 (amended): the grid allocation never fails: it is total and performs
no validation.  A task with zero subtasks is laid out as a summary block of
width 1 (no S columns, sum_block_end = ss_col) with no point runs, and the
allocation still produces one layout per task. -/
theorem c7_no_validation_amended (aufgaben : List Aufgabe) (i : Nat) (a : Aufgabe)
    (ha : aufgaben[i]? = some a) (hz : a.teilaufgaben = []) :
    (allocateLayouts aufgaben).length = aufgaben.length ∧
    ∃ l, (allocateLayouts aufgaben)[i]? = some l ∧ l.s_cols = [] ∧
      l.sum_block_end = l.ss_col ∧ l.teil_point_starts = [] := by
  refine ⟨allocateLayouts_length _, ?_⟩
  have hchar := allocateLayouts_getElem? aufgaben i
  rw [ha] at hchar
  simp only [Option.map_some'] at hchar
  refine ⟨_, hchar, ?_, ?_, ?_⟩ <;> simp [hz, taskStarts, teilPunkte]

/-- Witness for the amended C7: a one-task configuration whose task has no
subtasks is allocated without error. -/
theorem c7_no_validation_amended_witness :
    (allocateLayouts [({ teilaufgaben := [] } : Aufgabe)]).length = 1 ∧
    ∃ l, (allocateLayouts [({ teilaufgaben := [] } : Aufgabe)])[0]? = some l ∧
      l.s_cols = [] ∧ l.sum_block_end = l.ss_col ∧ l.teil_point_starts = [] := by
  have h := c7_no_validation_amended [{ teilaufgaben := [] }] 0 { teilaufgaben := [] } rfl rfl
  simpa using h

/-! ### Claim C4 -/

/-- C4: for every task and row, the task-summary (SS) cell formula is a sum
over exactly the contiguous range from the task's first subtask-summary
column to its last subtask-summary column at that row (every column of the
range is one of the task's S columns), and the range never contains a point
column. -/
theorem c4_task_sum_over_subtask_summaries (aufgaben : List Aufgabe) (i r : Nat)
    (a : Aufgabe) (ha : aufgaben[i]? = some a) (hne : a.teilaufgaben ≠ []) :
    ∃ l, (allocateLayouts aufgaben)[i]? = some l ∧
      ssFormula l r = some (CellValue.sumRow (summaryStart aufgaben i + 1)
        (summaryStart aufgaben i + a.teilaufgaben.length) r) ∧
      (∀ c, summaryStart aufgaben i + 1 ≤ c →
        c ≤ summaryStart aufgaben i + a.teilaufgaben.length → c ∈ l.s_cols) ∧
      (∀ c ∈ pointCols (allocateLayouts aufgaben),
        ¬(summaryStart aufgaben i + 1 ≤ c ∧
          c ≤ summaryStart aufgaben i + a.teilaufgaben.length)) := by
  have hn : a.teilaufgaben.length ≠ 0 := by
    simpa [List.length_eq_zero] using hne
  have hchar := allocateLayouts_getElem? aufgaben i
  rw [ha] at hchar
  simp only [Option.map_some'] at hchar
  have hrange : (List.range a.teilaufgaben.length).map
      (fun t => summaryStart aufgaben i + 1 + t)
      = List.range' (summaryStart aufgaben i + 1) a.teilaufgaben.length :=
    (List.range'_eq_map_range _ _).symm
  refine ⟨_, hchar, ?_, ?_, ?_⟩
  · simp only [ssFormula, hrange]
    rw [List.head?_range', List.getLast?_range']
    simp only [if_neg hn]
    congr 2
    omega
  · intro c h1 h2
    simp only [hrange, List.mem_range'_1]
    omega
  · intro c hc
    rw [pointCols_allocate, List.mem_range'_1] at hc
    have hle := summaryBlock_le_pointPhaseStart aufgaben i a ha
    omega

/-- The layout computed for the default configuration, used by witnesses. -/
def layoutD : AufgabeLayout :=
  { teil_punkte := [4, 4]
    teil_descriptions := [["", "", "", ""], ["", "", "", ""]]
    n_teil := 2
    ss_col := 6
    s_cols := [7, 8]
    sum_block_end := 8
    teil_point_starts := [9, 13] }

/-- Witness for C4 at the default configuration, row 7 (the first student
row): the SS formula sums columns 7 to 8 of row 7. -/
theorem c4_task_sum_over_subtask_summaries_witness :
    (allocateLayouts [defaultAufgabe])[0]? = some layoutD ∧
    ssFormula layoutD 7 = some (CellValue.sumRow 7 8 7) := by
  obtain ⟨l, h1, h2, h3, h4⟩ :=
    c4_task_sum_over_subtask_summaries [defaultAufgabe] 0 7 defaultAufgabe rfl (by decide)
  have hl : (allocateLayouts [defaultAufgabe])[0]? = some layoutD := by decide
  have heq : l = layoutD := by
    rw [h1] at hl
    exact Option.some.inj hl
  rw [heq] at h2
  have hss : summaryStart [defaultAufgabe] 0 = 6 := by decide
  rw [hss] at h2
  exact ⟨hl, by simpa using h2⟩

/-! ### Claim C8 -/

/-- The point columns of a single layout: the runs of its subtasks. -/
def pointColsOf (l : AufgabeLayout) : List Nat :=
  (l.teil_point_starts.zip l.teil_punkte).flatMap (fun sp => List.range' sp.1 sp.2)

theorem ssFormula_char (ss n r : Nat) (hn : n ≠ 0) (l : AufgabeLayout)
    (hs : l.s_cols = (List.range n).map (fun t => ss + 1 + t)) :
    ssFormula l r = some (CellValue.sumRow (ss + 1) (ss + n) r) := by
  have hrange : l.s_cols = List.range' (ss + 1) n := by
    rw [hs, ← List.range'_eq_map_range]
  simp only [ssFormula, hrange]
  rw [List.head?_range', List.getLast?_range']
  simp only [if_neg hn]
  congr 2
  omega

theorem taskStarts_getElem? (tp : List Nat) (base t : Nat) (h : t < tp.length) :
    (taskStarts tp base)[t]? = some (base + (tp.take t).sum) := by
  simp [taskStarts, List.getElem?_range h]

theorem maxPointsPointCells_eq (l : AufgabeLayout) :
    maxPointsPointCells l = (pointColsOf l).map (fun c => (c, CellValue.lit 1)) := by
  simp only [maxPointsPointCells, pointColsOf, List.map_flatMap]
  apply List.flatMap_congr
  intro x _
  rw [List.range'_eq_map_range, List.map_map]
  apply List.map_congr_left
  intro p _
  rfl

/-- C8: in the max-points row (row 5), every point column holds the literal
value 1 (at exactly the layout's point columns), every subtask-summary cell
is a SUM over exactly that subtask's point-column run in row 5 (the range
from the run's start to start + point_count - 1, which covers exactly the
run), and every task-summary cell is a SUM over exactly that task's
subtask-summary columns in row 5 — the same formula generators as the
student data rows, instantiated at row 5, with literal leaf values. -/
theorem c8_max_points_row (aufgaben : List Aufgabe) (i t pts : Nat) (a : Aufgabe)
    (ha : aufgaben[i]? = some a) (hne : a.teilaufgaben ≠ [])
    (hpts : (teilPunkte a)[t]? = some pts) (hp1 : 1 ≤ pts) :
    ∃ l, (allocateLayouts aufgaben)[i]? = some l ∧
      maxPointsPointCells l = (pointColsOf l).map (fun c => (c, CellValue.lit 1)) ∧
      sFormula l t 5 = some (CellValue.sumRow (runStart aufgaben i t)
        (runStart aufgaben i t + pts - 1) 5) ∧
      (∀ c, (runStart aufgaben i t ≤ c ∧ c ≤ runStart aufgaben i t + pts - 1) ↔
        c ∈ List.range' (runStart aufgaben i t) pts) ∧
      ssFormula l 5 = some (CellValue.sumRow (summaryStart aufgaben i + 1)
        (summaryStart aufgaben i + a.teilaufgaben.length) 5) := by
  have hn : a.teilaufgaben.length ≠ 0 := by
    simpa [List.length_eq_zero] using hne
  have ht : t < (teilPunkte a).length := by
    by_contra hcon
    push_neg at hcon
    rw [List.getElem?_eq_none hcon] at hpts
    exact Option.noConfusion hpts
  have hget : aufgaben.getD i ⟨[]⟩ = a := by
    rw [List.getD_eq_getElem?_getD, ha]
    rfl
  have hchar := allocateLayouts_getElem? aufgaben i
  rw [ha] at hchar
  simp only [Option.map_some'] at hchar
  refine ⟨_, hchar, maxPointsPointCells_eq _, ?_, ?_, ?_⟩
  · simp only [sFormula]
    rw [taskStarts_getElem? _ _ _ ht, hpts]
    simp only [runStart, hget]
  · intro c
    rw [List.mem_range'_1]
    omega
  · exact ssFormula_char (summaryStart aufgaben i) a.teilaufgaben.length 5 hn _ rfl

/-- Witness for C8 at the default configuration, subtask (1, 1): the max
row holds literal 1 at columns 9-16, the first S formula sums columns 9-12
of row 5, and the SS formula sums columns 7-8 of row 5. -/
theorem c8_max_points_row_witness :
    maxPointsPointCells layoutD =
      [(9, CellValue.lit 1), (10, CellValue.lit 1), (11, CellValue.lit 1),
       (12, CellValue.lit 1), (13, CellValue.lit 1), (14, CellValue.lit 1),
       (15, CellValue.lit 1), (16, CellValue.lit 1)] ∧
    sFormula layoutD 0 5 = some (CellValue.sumRow 9 12 5) ∧
    ssFormula layoutD 5 = some (CellValue.sumRow 7 8 5) := by
  obtain ⟨l, h1, h2, h3, h4, h5⟩ :=
    c8_max_points_row [defaultAufgabe] 0 0 4 defaultAufgabe rfl (by decide) (by decide)
      (by decide)
  have hl : (allocateLayouts [defaultAufgabe])[0]? = some layoutD := by decide
  have heq : l = layoutD := by
    rw [h1] at hl
    exact Option.some.inj hl
  subst heq
  refine ⟨by rw [h2]; decide, ?_, ?_⟩
  · have hr : runStart [defaultAufgabe] 0 0 = 9 := by decide
    rw [hr] at h3
    simpa using h3
  · have hs : summaryStart [defaultAufgabe] 0 = 6 := by decide
    rw [hs] at h5
    simpa using h5

/-! ### Claim C5 -/

theorem evalAverage_error_of_blank (cells : Nat → Option ℚ) (c : AvgCell)
    (h : ∀ r, c.firstRow ≤ r → r ≤ c.lastRow → cells r = none) :
    evalAverage cells c = Except.error () := by
  simp only [evalAverage]
  have hnil : (List.range' c.firstRow (c.lastRow + 1 - c.firstRow)).filterMap cells = [] := by
    rw [List.filterMap_eq_nil_iff]
    intro r hr
    rw [List.mem_range'_1] at hr
    exact h r hr.1 (by omega)
  rw [hnil]
  simp

/-- C5: for every point column, the average cell written at row 6 spans the
fixed student data-row range (rows 7 through 6 + n_students), and when that
range is empty (zero students) or every cell in it is blank, the AVERAGE
errors but the IFERROR wrapper degrades the cell to a blank result instead
of surfacing the error. -/
theorem c5_column_average_blank_on_empty (pc nStudents : Nat) (cells : Nat → Option ℚ)
    (h : nStudents = 0 ∨ ∀ r, 7 ≤ r → r ≤ 6 + nStudents → cells r = none) :
    (avgFormula pc nStudents).col = pc ∧
    (avgFormula pc nStudents).firstRow = 7 ∧
    (avgFormula pc nStudents).lastRow = 6 + nStudents ∧
    evalAverage cells (avgFormula pc nStudents) = Except.error () ∧
    ifErrorBlank (evalAverage cells (avgFormula pc nStudents)) = none := by
  have hall : ∀ r, 7 ≤ r → r ≤ 6 + nStudents → cells r = none := by
    rcases h with h0 | hall
    · intro r h1 h2
      omega
    · exact hall
  have herr : evalAverage cells (avgFormula pc nStudents) = Except.error () := by
    apply evalAverage_error_of_blank
    intro r h1 h2
    simp only [avgFormula] at h1 h2
    exact hall r h1 (by omega)
  refine ⟨rfl, rfl, ?_, herr, ?_⟩
  · simp only [avgFormula]
    omega
  · rw [herr]
    rfl

/-- A completely blank column, used as the C5 witness input. -/
def blankColumn : Nat → Option ℚ := fun _ => none

/-- Witness for C5: with zero students the average cell over rows 7..6
errors internally and renders blank. -/
theorem c5_column_average_blank_on_empty_witness :
    evalAverage blankColumn (avgFormula 9 0) = Except.error () ∧
    ifErrorBlank (evalAverage blankColumn (avgFormula 9 0)) = none := by
  have h := c5_column_average_blank_on_empty 9 0 blankColumn (Or.inl rfl)
  exact ⟨h.2.2.2.1, h.2.2.2.2⟩

/-! ### Claim C6 -/

theorem nMappen_mul_ge (n cap : Nat) (hcap : 1 ≤ cap) : n ≤ nMappen n cap * cap := by
  have h2 : n + cap - 1 < (nMappen n cap + 1) * cap :=
    (Nat.div_lt_iff_lt_mul (by omega)).mp (Nat.lt_succ_self _)
  rw [Nat.succ_mul] at h2
  have key : ∀ X : Nat, n + cap - 1 < X + cap → n ≤ X := by
    intro X hX
    omega
  exact key _ h2

theorem nMappen_pos_iff (n cap : Nat) (hcap : 1 ≤ cap) :
    1 ≤ nMappen n cap ↔ 1 ≤ n := by
  constructor
  · intro hk
    by_contra h0
    push_neg at h0
    have hn0 : n = 0 := by omega
    subst hn0
    have : (0 + cap - 1) / cap = 0 := Nat.div_eq_of_lt (by omega)
    simp only [nMappen] at hk
    omega
  · intro hn
    have : 1 * cap ≤ n + cap - 1 := by omega
    simpa only [nMappen] using (Nat.le_div_iff_mul_le (by omega)).mpr this

theorem nMappen_pred_mul_lt (n cap : Nat) (hcap : 1 ≤ cap) (hk : 1 ≤ nMappen n cap) :
    (nMappen n cap - 1) * cap < n := by
  have hn1 : 1 ≤ n := (nMappen_pos_iff n cap hcap).mp hk
  have h2 : nMappen n cap * cap ≤ n + cap - 1 := Nat.div_mul_le_self _ _
  have h3 : (nMappen n cap - 1) * cap = nMappen n cap * cap - cap := by
    rw [Nat.sub_mul, Nat.one_mul]
  rw [h3]
  have key : ∀ X : Nat, X ≤ n + cap - 1 → X - cap < n := by
    intro X hX
    omega
  exact key _ h2

theorem nMappen_full_mul_le (n cap j : Nat) (hcap : 1 ≤ cap) (hj : j + 1 < nMappen n cap) :
    (j + 1) * cap ≤ n := by
  have h1 : (j + 1) * cap ≤ (nMappen n cap - 1) * cap :=
    Nat.mul_le_mul_right cap (by omega)
  have h2 : (nMappen n cap - 1) * cap < n :=
    nMappen_pred_mul_lt n cap hcap (by omega)
  exact Nat.le_of_lt (Nat.lt_of_le_of_lt h1 h2)

theorem mappenSlices_flatten_aux (cap : Nat) :
    ∀ (k : Nat) (l : List α),
      ((List.range k).map (fun m => (l.drop (m * cap)).take cap)).flatten = l.take (k * cap)
  | 0, l => by simp
  | k + 1, l => by
    rw [List.range_succ_eq_map, List.map_cons, List.flatten_cons, List.map_map]
    have hcomp : ((List.range k).map ((fun m => (l.drop (m * cap)).take cap) ∘ Nat.succ))
        = (List.range k).map (fun m => ((l.drop cap).drop (m * cap)).take cap) := by
      apply List.map_congr_left
      intro m _
      simp only [Function.comp_apply, List.drop_drop, Nat.succ_eq_add_one]
      congr 2
      ring
    rw [hcomp, mappenSlices_flatten_aux cap k (l.drop cap)]
    rw [Nat.zero_mul, List.drop_zero, ← List.take_add]
    congr 1
    ring

theorem mappenSlices_length (students : List α) (cap : Nat) :
    (mappenSlices students cap).length = nMappen students.length cap := by
  simp [mappenSlices]

theorem mappenSlices_flatten (students : List α) (cap : Nat) (hcap : 1 ≤ cap) :
    (mappenSlices students cap).flatten = students := by
  rw [mappenSlices, mappenSlices_flatten_aux]
  exact List.take_of_length_le (nMappen_mul_ge students.length cap hcap)

theorem mappenSlices_getElem? (students : List α) (cap j : Nat)
    (hj : j < nMappen students.length cap) :
    (mappenSlices students cap)[j]? = some ((students.drop (j * cap)).take cap) := by
  simp [mappenSlices, List.getElem?_range hj]

/-- C6: for every student list and capacity >= 1, generate_excel's
partition produces ceil(n/cap) folders (nMappen) whose concatenation is the
original list (covering every student exactly once, in order); every folder
except possibly the last has length cap; the last folder has length
n - (nMappen - 1) * cap; and the student at roster index idx sits in the
folder numbered mappeNr idx cap (1-based, as written to the overview sheet)
at 0-based slot stelle idx cap. -/
theorem c6_folder_partition (students : List α) (cap : Nat) (hcap : 1 ≤ cap) :
    (mappenSlices students cap).length = nMappen students.length cap ∧
    (mappenSlices students cap).flatten = students ∧
    (∀ j, j + 1 < nMappen students.length cap →
      ∃ f, (mappenSlices students cap)[j]? = some f ∧ f.length = cap) ∧
    (students ≠ [] →
      ∃ f, (mappenSlices students cap).getLast? = some f ∧
        f.length = students.length - (nMappen students.length cap - 1) * cap) ∧
    (∀ idx s, students[idx]? = some s →
      ∃ f, (mappenSlices students cap)[mappeNr idx cap - 1]? = some f ∧
        f[stelle idx cap]? = some s) := by
  refine ⟨mappenSlices_length _ _, mappenSlices_flatten _ _ hcap, ?_, ?_, ?_⟩
  · intro j hj
    refine ⟨_, mappenSlices_getElem? students cap j (by omega), ?_⟩
    have hfull := nMappen_full_mul_le students.length cap j hcap hj
    rw [Nat.succ_mul] at hfull
    simp only [List.length_take, List.length_drop]
    have key : ∀ Y : Nat, Y + cap ≤ students.length → min cap (students.length - Y) = cap := by
      intro Y hY
      omega
    exact key _ hfull
  · intro hne
    have hn1 : 1 ≤ students.length := by
      cases students with
      | nil => exact absurd rfl hne
      | cons a l => simp
    have hk : 1 ≤ nMappen students.length cap := (nMappen_pos_iff _ cap hcap).mpr hn1
    have hlast : (mappenSlices students cap).getLast?
        = (mappenSlices students cap)[nMappen students.length cap - 1]? := by
      rw [List.getLast?_eq_getElem?, mappenSlices_length]
    refine ⟨_, by rw [hlast]; exact mappenSlices_getElem? students cap _ (by omega), ?_⟩
    simp only [List.length_take, List.length_drop]
    have hub := nMappen_mul_ge students.length cap hcap
    have h3 : (nMappen students.length cap - 1) * cap
        = nMappen students.length cap * cap - cap := by
      rw [Nat.sub_mul, Nat.one_mul]
    have hcapX : cap ≤ nMappen students.length cap * cap := by
      calc cap = 1 * cap := (Nat.one_mul cap).symm
        _ ≤ nMappen students.length cap * cap := Nat.mul_le_mul_right cap hk
    have key : ∀ X Y : Nat, Y = X - cap → students.length ≤ X → cap ≤ X →
        min cap (students.length - Y) = students.length - Y := by
      intro X Y h1 h2 h2b
      omega
    exact key _ _ h3 hub hcapX
  · intro idx s hs
    have hidx : idx < students.length := by
      by_contra hcon
      push_neg at hcon
      rw [List.getElem?_eq_none hcon] at hs
      exact Option.noConfusion hs
    have hub := nMappen_mul_ge students.length cap hcap
    have hq : idx / cap < nMappen students.length cap := by
      have key : ∀ X : Nat, students.length ≤ X → idx < X := by
        intro X hX
        omega
      exact (Nat.div_lt_iff_lt_mul (by omega)).mpr (key _ hub)
    have hnr : mappeNr idx cap - 1 = idx / cap := by
      simp [mappeNr]
    rw [hnr, stelle]
    refine ⟨_, mappenSlices_getElem? students cap _ hq, ?_⟩
    rw [List.getElem?_take]
    have hr : idx % cap < cap := Nat.mod_lt _ (by omega)
    rw [if_pos hr, List.getElem?_drop]
    have hdm : idx / cap * cap + idx % cap = idx := by
      have h := Nat.div_add_mod idx cap
      rw [Nat.mul_comm] at h
      exact h
    rw [hdm]
    exact hs

/-- Witness for C6: 3 students with capacity 2 give 2 folders covering the
roster in order. -/
theorem c6_folder_partition_witness :
    (mappenSlices [10, 20, 30] 2).length = 2 ∧
    (mappenSlices [10, 20, 30] 2).flatten = [10, 20, 30] := by
  have h := c6_folder_partition [10, 20, 30] 2 (by decide)
  exact ⟨by rw [h.1]; decide, h.2.1⟩

/-! ### Claim C9 -/

/-- C9: after _sync_descriptions, the stored point count equals newPunkte
and the descriptions list has exactly that length; growing appends empty
strings to the existing list, shrinking truncates it to the first newPunkte
entries, and in both cases the common part of the old list survives
unchanged. -/
theorem syncDescriptions_grow (ta : Teilaufgabe) (n : Nat) (h : ta.descriptions.length < n) :
    syncDescriptions ta n =
      { punkte := n
        descriptions := ta.descriptions ++ List.replicate (n - ta.descriptions.length) "" } := by
  unfold syncDescriptions
  rw [if_pos h]

theorem syncDescriptions_shrink (ta : Teilaufgabe) (n : Nat) (h : n < ta.descriptions.length) :
    syncDescriptions ta n = { punkte := n, descriptions := ta.descriptions.take n } := by
  unfold syncDescriptions
  rw [if_neg (by omega), if_pos h]

theorem syncDescriptions_same (ta : Teilaufgabe) (n : Nat) (h : ta.descriptions.length = n) :
    syncDescriptions ta n = { punkte := n, descriptions := ta.descriptions } := by
  unfold syncDescriptions
  rw [if_neg (by omega), if_neg (by omega)]

theorem c9_sync_descriptions (ta : Teilaufgabe) (newPunkte : Nat) :
    (syncDescriptions ta newPunkte).punkte = newPunkte ∧
    (syncDescriptions ta newPunkte).descriptions.length
      = (syncDescriptions ta newPunkte).punkte ∧
    (ta.descriptions.length ≤ newPunkte →
      (syncDescriptions ta newPunkte).descriptions
        = ta.descriptions ++ List.replicate (newPunkte - ta.descriptions.length) "") ∧
    (newPunkte ≤ ta.descriptions.length →
      (syncDescriptions ta newPunkte).descriptions = ta.descriptions.take newPunkte) ∧
    (syncDescriptions ta newPunkte).descriptions.take (min newPunkte ta.descriptions.length)
      = ta.descriptions.take (min newPunkte ta.descriptions.length) := by
  rcases Nat.lt_trichotomy ta.descriptions.length newPunkte with hlt | heq | hgt
  · rw [syncDescriptions_grow ta newPunkte hlt]
    refine ⟨rfl, ?_, fun _ => rfl, ?_, ?_⟩
    · simp only [List.length_append, List.length_replicate]
      omega
    · intro hle
      omega
    · rw [Nat.min_eq_right (Nat.le_of_lt hlt), List.take_append_eq_append_take,
        List.take_length, Nat.sub_self, List.take_zero, List.append_nil]
  · rw [syncDescriptions_same ta newPunkte heq]
    refine ⟨rfl, by simp [← heq], ?_, ?_, rfl⟩
    · intro _
      rw [← heq, Nat.sub_self, List.replicate_zero, List.append_nil]
    · intro _
      rw [← heq, List.take_length]
  · rw [syncDescriptions_shrink ta newPunkte hgt]
    refine ⟨rfl, ?_, ?_, fun _ => rfl, ?_⟩
    · simp only [List.length_take]
      omega
    · intro hle
      omega
    · rw [Nat.min_eq_left (Nat.le_of_lt hgt), List.take_take, Nat.min_self]

/-- Witness for C9: shrinking a subtask from 4 to 2 points truncates its
descriptions to the first two entries and keeps the invariant. -/
theorem c9_sync_descriptions_witness :
    (syncDescriptions { punkte := 4, descriptions := ["a", "b", "c", "d"] } 2).descriptions
      = ["a", "b"] ∧
    (syncDescriptions { punkte := 4, descriptions := ["a", "b", "c", "d"] } 2).punkte = 2 := by
  have h := c9_sync_descriptions { punkte := 4, descriptions := ["a", "b", "c", "d"] } 2
  refine ⟨?_, h.1⟩
  have h4 := h.2.2.2.1 (by decide)
  rw [h4]
  decide

/-! ### Claim C10 -/

theorem modifyTeil_length : ∀ (l : List Teilaufgabe) (t n : Nat),
    (modifyTeil l t n).length = l.length
  | [], _, _ => rfl
  | _ :: _, 0, _ => rfl
  | ta :: rest, i + 1, n => by
    simp [modifyTeil, modifyTeil_length rest i n]

theorem removeTeilaufgabe_noop : ∀ (s : List Aufgabe) (aIdx tIdx : Nat) (a : Aufgabe),
    s[aIdx]? = some a → a.teilaufgaben.length = 1 → removeTeilaufgabe s aIdx tIdx = s
  | [], _, _, _, h, _ => Option.noConfusion h
  | a2 :: rest, 0, t, a, h, h1 => by
    have ha : a2 = a := Option.some.inj (by simpa using h)
    subst ha
    have hc : ¬(1 < a2.teilaufgaben.length) := by omega
    simp only [removeTeilaufgabe, if_neg hc]
  | a2 :: rest, i + 1, t, a, h, h1 => by
    simp only [removeTeilaufgabe]
    rw [removeTeilaufgabe_noop rest i t a (by simpa using h) h1]

theorem validConfig_removeAufgabe (s : List Aufgabe) (idx : Nat) (h : ValidConfig s) :
    ValidConfig (removeAufgabe s idx) := by
  unfold removeAufgabe
  split
  · rename_i hlen
    constructor
    · apply List.length_pos.mp
      rw [List.length_eraseIdx]
      split <;> omega
    · intro a ha
      exact h.2 a (List.mem_of_mem_eraseIdx ha)
  · exact h

theorem validConfig_addAufgabe (s : List Aufgabe) (h : ValidConfig s) :
    ValidConfig (addAufgabe s) := by
  constructor
  · simp [addAufgabe]
  · intro a ha
    rw [addAufgabe, List.mem_append] at ha
    rcases ha with ha | ha
    · exact h.2 a ha
    · simp only [List.mem_singleton] at ha
      subst ha
      simp [defaultAufgabe]

theorem addTeilaufgabe_mem : ∀ (s : List Aufgabe) (aIdx : Nat),
    (∀ a ∈ s, a.teilaufgaben ≠ []) →
      ∀ b ∈ addTeilaufgabe s aIdx, b.teilaufgaben ≠ []
  | [], _, _, b, hb => absurd hb (by simp [addTeilaufgabe])
  | a :: rest, 0, hs, b, hb => by
    simp only [addTeilaufgabe, List.mem_cons] at hb
    rcases hb with hb | hb
    · subst hb
      simp
    · exact hs b (List.mem_cons_of_mem _ hb)
  | a :: rest, i + 1, hs, b, hb => by
    simp only [addTeilaufgabe, List.mem_cons] at hb
    rcases hb with hb | hb
    · subst hb
      exact hs _ (List.mem_cons_self _ _)
    · exact addTeilaufgabe_mem rest i (fun x hx => hs x (List.mem_cons_of_mem _ hx)) b hb

theorem addTeilaufgabe_length : ∀ (s : List Aufgabe) (aIdx : Nat),
    (addTeilaufgabe s aIdx).length = s.length
  | [], _ => rfl
  | _ :: _, 0 => rfl
  | a :: rest, i + 1 => by
    simp [addTeilaufgabe, addTeilaufgabe_length rest i]

theorem validConfig_addTeilaufgabe (s : List Aufgabe) (aIdx : Nat) (h : ValidConfig s) :
    ValidConfig (addTeilaufgabe s aIdx) := by
  constructor
  · have := addTeilaufgabe_length s aIdx
    intro hnil
    rw [hnil] at this
    exact h.1 (List.length_eq_zero.mp this.symm)
  · exact addTeilaufgabe_mem s aIdx h.2

theorem removeTeilaufgabe_mem : ∀ (s : List Aufgabe) (aIdx tIdx : Nat),
    (∀ a ∈ s, a.teilaufgaben ≠ []) →
      ∀ b ∈ removeTeilaufgabe s aIdx tIdx, b.teilaufgaben ≠ []
  | [], _, _, _, b, hb => absurd hb (by simp [removeTeilaufgabe])
  | a :: rest, 0, t, hs, b, hb => by
    simp only [removeTeilaufgabe, List.mem_cons] at hb
    rcases hb with hb | hb
    · subst hb
      split
    
      · rename_i hlen
        apply List.length_pos.mp
        rw [List.length_eraseIdx]
        split <;> omega
      · exact hs _ (List.mem_cons_self _ _)
    · exact hs b (List.mem_cons_of_mem _ hb)
  | a :: rest, i + 1, t, hs, b, hb => by
    simp only [removeTeilaufgabe, List.mem_cons] at hb
    rcases hb with hb | hb
    · subst hb
      exact hs _ (List.mem_cons_self _ _)
    · exact removeTeilaufgabe_mem rest i t (fun x hx => hs x (List.mem_cons_of_mem _ hx)) b hb

theorem removeTeilaufgabe_length : ∀ (s : List Aufgabe) (aIdx tIdx : Nat),
    (removeTeilaufgabe s aIdx tIdx).length = s.length
  | [], _, _ => rfl
  | _ :: _, 0, _ => by
    simp [removeTeilaufgabe]
  | a :: rest, i + 1, t => by
    simp [removeTeilaufgabe, removeTeilaufgabe_length rest i t]

theorem validConfig_removeTeilaufgabe (s : List Aufgabe) (aIdx tIdx : Nat)
    (h : ValidConfig s) : ValidConfig (removeTeilaufgabe s aIdx tIdx) := by
  constructor
  · have := removeTeilaufgabe_length s aIdx tIdx
    intro hnil
    rw [hnil] at this
    exact h.1 (List.length_eq_zero.mp this.symm)
  · exact removeTeilaufgabe_mem s aIdx tIdx h.2

theorem syncAt_mem : ∀ (s : List Aufgabe) (aIdx tIdx n : Nat),
    (∀ a ∈ s, a.teilaufgaben ≠ []) →
      ∀ b ∈ syncAt s aIdx tIdx n, b.teilaufgaben ≠ []
  | [], _, _, _, _, b, hb => absurd hb (by simp [syncAt])
  | a :: rest, 0, t, n, hs, b, hb => by
    simp only [syncAt, List.mem_cons] at hb
    rcases hb with hb | hb
    · subst hb
      have hlen := modifyTeil_length a.teilaufgaben t n
      have hne := hs _ (List.mem_cons_self _ _)
      intro hnil
      have hnil2 : modifyTeil a.teilaufgaben t n = [] := hnil
      rw [hnil2] at hlen
      exact hne (List.length_eq_zero.mp hlen.symm)
    · exact hs b (List.mem_cons_of_mem _ hb)
  | a :: rest, i + 1, t, n, hs, b, hb => by
    simp only [syncAt, List.mem_cons] at hb
    rcases hb with hb | hb
    · subst hb
      exact hs _ (List.mem_cons_self _ _)
    · exact syncAt_mem rest i t n (fun x hx => hs x (List.mem_cons_of_mem _ hx)) b hb

theorem syncAt_length : ∀ (s : List Aufgabe) (aIdx tIdx n : Nat),
    (syncAt s aIdx tIdx n).length = s.length
  | [], _, _, _ => rfl
  | _ :: _, 0, _, _ => rfl
  | a :: rest, i + 1, t, n => by
    simp [syncAt, syncAt_length rest i t n]

theorem validConfig_syncAt (s : List Aufgabe) (aIdx tIdx n : Nat) (h : ValidConfig s) :
    ValidConfig (syncAt s aIdx tIdx n) := by
  constructor
  · have := syncAt_length s aIdx tIdx n
    intro hnil
    rw [hnil] at this
    exact h.1 (List.length_eq_zero.mp this.symm)
  · exact syncAt_mem s aIdx tIdx n h.2

/-- C10: the editor's removal operations preserve the non-emptiness
invariant: removing an Aufgabe is a no-op when only one remains, removing a
Teilaufgabe is a no-op when its Aufgabe has only one, and consequently
every session state reachable through the editor operations (from the
default state, via add/remove/resize) has at least one Aufgabe, each with
at least one Teilaufgabe. -/
theorem c10_removal_preserves_invariant :
    (∀ (s : List Aufgabe) (idx : Nat), s.length = 1 → removeAufgabe s idx = s) ∧
    (∀ (s : List Aufgabe) (aIdx tIdx : Nat) (a : Aufgabe), s[aIdx]? = some a →
      a.teilaufgaben.length = 1 → removeTeilaufgabe s aIdx tIdx = s) ∧
    (∀ s : List Aufgabe, Reachable s → ValidConfig s) := by
  refine ⟨?_, removeTeilaufgabe_noop, ?_⟩
  · intro s idx hlen
    unfold removeAufgabe
    rw [if_neg (by omega)]
  · intro s hreach
    induction hreach with
    | start =>
      constructor
      · simp
      · intro a ha
        simp only [List.mem_singleton] at ha
        subst ha
        simp [defaultAufgabe]
    | addA _ ih => exact validConfig_addAufgabe _ ih
    | removeA idx _ ih => exact validConfig_removeAufgabe _ idx ih
    | addT aIdx _ ih => exact validConfig_addTeilaufgabe _ aIdx ih
    | removeT aIdx tIdx _ ih => exact validConfig_removeTeilaufgabe _ aIdx tIdx ih
    | syncT aIdx tIdx n _ ih => exact validConfig_syncAt _ aIdx tIdx n ih

/-- Witness for C10: removing the only Aufgabe of the default state is a
no-op, and the default state satisfies the invariant. -/
theorem c10_removal_preserves_invariant_witness :
    removeAufgabe [defaultAufgabe] 0 = [defaultAufgabe] ∧
    removeTeilaufgabe [{ teilaufgaben := [defaultTeilaufgabe] }] 0 0
      = [{ teilaufgaben := [defaultTeilaufgabe] }] ∧
    ValidConfig [defaultAufgabe] := by
  refine ⟨c10_removal_preserves_invariant.1 [defaultAufgabe] 0 (by decide), ?_, ?_⟩
  · exact c10_removal_preserves_invariant.2.1 [{ teilaufgaben := [defaultTeilaufgabe] }] 0 0
      { teilaufgaben := [defaultTeilaufgabe] } rfl (by decide)
  · exact c10_removal_preserves_invariant.2.2 [defaultAufgabe] Reachable.start
